import Mathlib

/-!
Verification of the MTG Deck Manager backend (TypeScript + Express + Mongoose).

This file gives a shallow embedding of the deck-management core:
the Mongoose document store for decks (`DeckSchema`, including the
`pre('save')` title-casing hook, the unique index on `name`, trimming
setters and field validators), the repository implementation
(`MongoDeckRepository`), the application use cases (`DeckUseCases`),
the controller pagination/filter parsing (`DeckController.getAllDecks`)
and the Joi request validators (`validateCreateDeck`, `validateUpdateDeck`).

Strings are modelled as Lean `String`s; character case operations use
the ASCII case mapping (`Char.toLower` / `Char.toUpper`), matching the
behaviour of JavaScript `toLowerCase`/`toUpperCase` on ASCII data.
Timestamps (`Date`) are modelled as natural numbers supplied explicitly
(`now` parameters); MongoDB ObjectIds are modelled as strings checked by
the same 24-hex-digit test the code uses.
-/

namespace DeckManager

/-- ASCII whitespace test, modelling the characters stripped by JavaScript's
`String.prototype.trim` (restricted to the ASCII whitespace used in practice). -/
def isWS (c : Char) : Bool :=
  c == ' ' || c == '\t' || c == '\n' || c == '\r'

/-- Model of JavaScript `s.trim()`: strips leading and trailing whitespace. -/
def trimStr (s : String) : String :=
  String.mk (((s.data.dropWhile isWS).reverse.dropWhile isWS).reverse)

/-- Model of JavaScript `s.toLowerCase()` (ASCII case mapping). -/
def lowerStr (s : String) : String :=
  String.mk (s.data.map Char.toLower)

/-- Splits a character list at every space, as JavaScript `s.split(' ')` does
(consecutive spaces produce empty pieces, the empty string yields one empty piece). -/
def splitOnSpace : List Char → List (List Char)
  | [] => [[]]
  | c :: rest =>
    if c = ' ' then [] :: splitOnSpace rest
    else
      match splitOnSpace rest with
      | [] => [[c]]
      | w :: ws => (c :: w) :: ws

/-- Joins pieces with single spaces, as JavaScript `parts.join(' ')` does. -/
def joinSpace : List (List Char) → List Char
  | [] => []
  | [w] => w
  | w :: ws => w ++ ' ' :: joinSpace ws

/-- Title-cases one word, modelling
`word.charAt(0).toUpperCase() + word.slice(1).toLowerCase()`. -/
def titleCaseWord : List Char → List Char
  | [] => []
  | c :: cs => c.toUpper :: cs.map Char.toLower

/-- Model of the `DeckSchema.pre('save')` hook:
`name.split(' ').map(w => w.charAt(0).toUpperCase() + w.slice(1).toLowerCase()).join(' ')`. -/
def titleCase (s : String) : String :=
  String.mk (joinSpace ((splitOnSpace s.data).map titleCaseWord))

/-- Contiguous-sublist test on character lists. -/
def infixOf (needle : List Char) : List Char → Bool
  | [] => needle.isEmpty
  | c :: rest => needle.isPrefixOf (c :: rest) || infixOf needle rest

/-- Case-insensitive substring test, modelling an unanchored
`new RegExp(pattern, 'i')` match where the pattern contains no regex
metacharacters (the pattern string is treated literally). -/
def containsCI (hay needle : String) : Bool :=
  infixOf (lowerStr needle).data (lowerStr hay).data

/-- Boolean linear-order comparison on strings (MongoDB's lexicographic
ordering on string sort keys). -/
def strLe (a b : String) : Bool :=
  decide (a ≤ b)

/-- Model of `Types.ObjectId.isValid` / the `^[0-9a-fA-F]{24}$` check of
`validateDeckId`: a 24-character hexadecimal string. -/
def isValidObjectId (s : String) : Bool :=
  s.data.length == 24 &&
    s.data.all (fun c =>
      ('0' ≤ c && c ≤ '9') || ('a' ≤ c && c ≤ 'f') || ('A' ≤ c && c ≤ 'F'))

/-- Ceiling division on naturals, modelling `Math.ceil(total / limit)` for a
positive `limit`. -/
def ceilDiv (total limit : Nat) : Nat :=
  (total + limit - 1) / limit

/-- Insertion of an element into a list sorted by a boolean comparator. -/
def orderedInsertBy (le : α → α → Bool) (a : α) : List α → List α
  | [] => [a]
  | b :: l => if le a b then a :: b :: l else b :: orderedInsertBy le a l

/-- Insertion sort by a boolean comparator.  Models the sorting the document
store applies to query results (a stable comparison sort). -/
def insertionSortBy (le : α → α → Bool) : List α → List α
  | [] => []
  | a :: l => orderedInsertBy le a (insertionSortBy le l)

/-! ## Data model

Enum values are kept as raw strings, matching the runtime behaviour of the
TypeScript code (the use case casts request strings to enum types with
`as any`, so invalid values flow through to the schema validators). -/

/-- Valid values of the `MagicColor` enum. -/
def magicColors : List String := ["W", "U", "B", "R", "G", "C"]

/-- Valid values of the `TierRating` enum. -/
def tierRatings : List String := ["S", "A", "B", "C", "D"]

/-- Valid values of the `DeckType` enum. -/
def deckTypes : List String := ["AGGRO", "COMBO", "CONTROL"]

/-- Valid values of the `GameStage` enum. -/
def gameStages : List String := ["EARLY", "MID", "LATE"]

/-- A stored deck record (the `Deck` interface / a persisted document). -/
structure Deck where
  id : String
  name : String
  description : String
  colors : List String
  tierRating : String
  hasCardSleeves : Bool
  isComplete : Bool
  descriptiveImage : Option String
  deckType : String
  gameStage : String
  storageLocation : String
  planeswalker : Option String
  createdAt : Nat
  updatedAt : Nat
deriving DecidableEq, Repr

/-- The `CreateDeckRequest` DTO. -/
structure CreateDeckRequest where
  name : String
  description : String
  colors : List String
  tierRating : String
  hasCardSleeves : Bool
  isComplete : Bool
  deckType : String
  gameStage : String
  storageLocation : String
  descriptiveImage : Option String
  planeswalker : Option String
deriving DecidableEq, Repr

/-- The `UpdateDeckRequest` DTO: every field optional. -/
structure UpdateDeckRequest where
  name : Option String
  description : Option String
  colors : Option (List String)
  tierRating : Option String
  hasCardSleeves : Option Bool
  isComplete : Option Bool
  deckType : Option String
  gameStage : Option String
  storageLocation : Option String
  descriptiveImage : Option String
  planeswalker : Option String
deriving DecidableEq, Repr

/-- The `DeckFilters` interface. -/
structure DeckFilters where
  deckType : Option String
  gameStage : Option String
  tierRating : Option String
  isComplete : Option Bool
  hasCardSleeves : Option Bool
  storageLocation : Option String
deriving DecidableEq, Repr

/-- The `PaginationOptions` interface.  `page = 0` / `limit = 0` /
empty strings stand for absent or falsy values, which the repository
replaces by its defaults via JavaScript `||`. -/
structure PaginationOptions where
  page : Nat
  limit : Nat
  sortBy : String
  sortOrder : String
deriving DecidableEq, Repr

/-- The `PaginatedResult` interface. -/
structure PaginatedResult where
  data : List Deck
  total : Nat
  page : Nat
  limit : Nat
  totalPages : Nat
deriving DecidableEq, Repr

/-- Typed classification of the errors the service layer throws; the
controller pattern-matches the message to pick these apart
(`already exists` → 409 CONFLICT, `not found` → 404 NOT_FOUND,
mongoose validation failure → 400). -/
inductive UCError where
  | conflict
  | notFound
  | validation
deriving DecidableEq, Repr

/-- Decidable equality for `Except` results, so concrete runs of the model
can be checked by `decide`. -/
instance exceptDecEq {ε α : Type} [DecidableEq ε] [DecidableEq α] :
    DecidableEq (Except ε α)
  | Except.error a, Except.error b =>
    if h : a = b then isTrue (by rw [h])
    else isFalse (by intro hc; cases hc; exact h rfl)
  | Except.error _, Except.ok _ => isFalse (by intro hc; cases hc)
  | Except.ok _, Except.error _ => isFalse (by intro hc; cases hc)
  | Except.ok a, Except.ok b =>
    if h : a = b then isTrue (by rw [h])
    else isFalse (by intro hc; cases hc; exact h rfl)

/-! ## Mongoose document store (`DeckSchema` + MongoDB behaviour)

The store is a list of documents.  `unique: true` on `name` is a MongoDB
unique index: it is case-SENSITIVE exact equality, checked at write time
(duplicate writes fail with error code 11000).  The `trim: true` options
are setters applied whenever a field is written (on `save` and on
`findByIdAndUpdate` alike); the `pre('save')` title-casing hook runs only
on `save`, NOT on `findByIdAndUpdate`. -/

/-- Model of the `trim: true` setters of `DeckSchema` applied to a document's
string fields. -/
def trimDeck (d : Deck) : Deck :=
  { d with
    name := trimStr d.name
    description := trimStr d.description
    storageLocation := trimStr d.storageLocation
    descriptiveImage := d.descriptiveImage.map trimStr
    planeswalker := d.planeswalker.map trimStr }

/-- Model of the `descriptiveImage` validator:
`/^https?:\/\/.+\.(jpg|jpeg|png|gif|webp)$/i` (at least one character between
the scheme and the extension), with the empty value accepted. -/
def imageUrlValid (s : String) : Bool :=
  s == "" ||
    (let l := lowerStr s
     let schemeLen : Nat := if l.startsWith "https://" then 8 else 7
     (l.startsWith "http://" || l.startsWith "https://") &&
       ["jpg", "jpeg", "png", "gif", "webp"].any (fun ext =>
         l.endsWith ("." ++ ext) && schemeLen + 1 + (ext.length + 1) ≤ l.length))

/-- Model of the field validators declared in `DeckSchema` (required fields,
maximum lengths, enum membership, colors arity, image URL format). -/
def schemaValid (d : Deck) : Bool :=
  d.name != "" && d.name.length ≤ 100 &&
  d.description != "" && d.description.length ≤ 500 &&
  d.colors.all (fun c => magicColors.contains c) &&
  0 < d.colors.length && d.colors.length ≤ 5 &&
  tierRatings.contains d.tierRating &&
  deckTypes.contains d.deckType &&
  gameStages.contains d.gameStage &&
  d.storageLocation != "" && d.storageLocation.length ≤ 100 &&
  (match d.descriptiveImage with
   | none => true
   | some u => imageUrlValid u) &&
  (match d.planeswalker with
   | none => true
   | some p => p.length ≤ 50)

/-- Model of `new DeckModel(data).save()`: setters (trim) are applied, the
validators run, the `pre('save')` hook title-cases the name, and the write
hits the unique index on `name` (exact, case-sensitive equality; MongoDB
error 11000 on a duplicate, which `MongoDeckRepository.create` rethrows as
an `already exists` conflict error).  Returns the resulting store alongside
the outcome; on any error the store is unchanged. -/
def mongoSave (store : List Deck) (d : Deck) : Except UCError Deck × List Deck :=
  let d := trimDeck d
  if !schemaValid d then (Except.error UCError.validation, store)
  else
    let d := { d with name := titleCase d.name }
    if store.any (fun x => x.name == d.name) then (Except.error UCError.conflict, store)
    else (Except.ok d, store ++ [d])

/-- Model of `MongoDeckRepository.findById`: malformed ObjectIds yield
`null`, otherwise the document with that `_id` (ids are unique). -/
def findById (store : List Deck) (id : String) : Option Deck :=
  if !isValidObjectId id then none
  else store.find? (fun d => d.id == id)

/-- Model of `MongoDeckRepository.findByName`:
`findOne({ name: new RegExp('^' + name + '$', 'i') })`, a case-insensitive
exact match (regex metacharacters in `name` are treated literally here). -/
def findByName (store : List Deck) (name : String) : Option Deck :=
  store.find? (fun d => lowerStr d.name == lowerStr name)

/-- The document `MongoDeckRepository.create` submits to the store: the
incoming entity's `id`, `createdAt` and `updatedAt` are stripped, the
server assigns a fresh `_id` and `timestamps: true` sets both timestamps to
the current time. -/
def deckOfRequest (req : CreateDeckRequest) (freshId : String) (now : Nat) : Deck :=
  { id := freshId
    name := req.name
    description := req.description
    colors := req.colors
    tierRating := req.tierRating
    hasCardSleeves := req.hasCardSleeves
    isComplete := req.isComplete
    descriptiveImage := req.descriptiveImage
    deckType := req.deckType
    gameStage := req.gameStage
    storageLocation := req.storageLocation
    planeswalker := req.planeswalker
    createdAt := now
    updatedAt := now }

/-- Model of `MongoDeckRepository.create`: builds the document and saves it. -/
def repoCreate (store : List Deck) (req : CreateDeckRequest) (freshId : String)
    (now : Nat) : Except UCError Deck × List Deck :=
  mongoSave store (deckOfRequest req freshId now)

/-- Merge of an update request into an existing document, as
`findByIdAndUpdate(id, { ...updates, updatedAt: new Date() })` applies it:
supplied fields overwrite (passing through the trim setters), `updatedAt`
is set to the current time, and `id`/`createdAt` are untouched (the DTO has
no such fields and `_id` is immutable). -/
def applyUpdates (d : Deck) (u : UpdateDeckRequest) (now : Nat) : Deck :=
  { d with
    name := (u.name.map trimStr).getD d.name
    description := (u.description.map trimStr).getD d.description
    colors := u.colors.getD d.colors
    tierRating := u.tierRating.getD d.tierRating
    hasCardSleeves := u.hasCardSleeves.getD d.hasCardSleeves
    isComplete := u.isComplete.getD d.isComplete
    deckType := u.deckType.getD d.deckType
    gameStage := u.gameStage.getD d.gameStage
    storageLocation := (u.storageLocation.map trimStr).getD d.storageLocation
    descriptiveImage := (u.descriptiveImage.map trimStr).map some
      |>.getD d.descriptiveImage
    planeswalker := (u.planeswalker.map trimStr).map some |>.getD d.planeswalker
    updatedAt := now }

/-- Model of `MongoDeckRepository.update`: malformed ids yield `null`; a
missing document yields `null`; otherwise `findByIdAndUpdate` merges the
update (running setters and, because of `runValidators: true`, the schema
validators, but NOT the `pre('save')` title-casing hook), subject to the
unique index on `name` (11000 → conflict against any OTHER document with
exactly the same name). -/
def repoUpdate (store : List Deck) (id : String) (u : UpdateDeckRequest)
    (now : Nat) : Except UCError (Option Deck) × List Deck :=
  if !isValidObjectId id then (Except.ok none, store)
  else
    match store.find? (fun d => d.id == id) with
    | none => (Except.ok none, store)
    | some d =>
      let d' := applyUpdates d u now
      if !schemaValid d' then (Except.error UCError.validation, store)
      else if store.any (fun x => x.id != id && x.name == d'.name) then
        (Except.error UCError.conflict, store)
      else (Except.ok (some d'), store.map (fun x => if x.id == id then d' else x))

/-! ## Filtering, sorting and pagination (`MongoDeckRepository.findAll`) -/

/-- Model of `MongoDeckRepository.buildFilterQuery` combined with MongoDB's
match semantics: every filter set by a truthy value constrains the record
(conjunction); `deckType`/`gameStage`/`tierRating` by exact equality
(JavaScript truthiness: the empty string imposes no constraint),
`isComplete`/`hasCardSleeves` by exact equality whenever defined, and
`storageLocation` by case-insensitive substring (`new RegExp(loc, 'i')`). -/
def matchesQuery (f : DeckFilters) (d : Deck) : Bool :=
  (match f.deckType with
   | some s => s == "" || d.deckType == s
   | none => true) &&
  (match f.gameStage with
   | some s => s == "" || d.gameStage == s
   | none => true) &&
  (match f.tierRating with
   | some s => s == "" || d.tierRating == s
   | none => true) &&
  (match f.isComplete with
   | some b => d.isComplete == b
   | none => true) &&
  (match f.hasCardSleeves with
   | some b => d.hasCardSleeves == b
   | none => true) &&
  (match f.storageLocation with
   | some s => s == "" || containsCI d.storageLocation s
   | none => true)

/-- Lift of `matchesQuery` to the optional `filters?` argument: an absent
filter object builds the empty query, which matches everything. -/
def matchesQueryOpt (f : Option DeckFilters) (d : Deck) : Bool :=
  match f with
  | none => true
  | some f => matchesQuery f d

/-- Sort-key comparison for the fields `findAll` can sort by; unrecognized
fields are modelled as imposing no order. -/
def sortKeyLe (sortBy : String) (a b : Deck) : Bool :=
  if sortBy == "name" then strLe a.name b.name
  else if sortBy == "createdAt" then decide (a.createdAt ≤ b.createdAt)
  else if sortBy == "updatedAt" then decide (a.updatedAt ≤ b.updatedAt)
  else if sortBy == "tierRating" then strLe a.tierRating b.tierRating
  else true

/-- Document comparison used by `findAll`'s `.sort(sort)`:
ascending by the sort key when `sortOrder === 'asc'`, otherwise descending. -/
def deckLe (sortBy sortOrder : String) (a b : Deck) : Bool :=
  if sortOrder == "asc" then sortKeyLe sortBy a b else sortKeyLe sortBy b a

/-- Effective page: `pagination?.page || 1`. -/
def effPage (p : Option PaginationOptions) : Nat :=
  match p with
  | some p => if p.page == 0 then 1 else p.page
  | none => 1

/-- Effective limit: `pagination?.limit || 10`. -/
def effLimit (p : Option PaginationOptions) : Nat :=
  match p with
  | some p => if p.limit == 0 then 10 else p.limit
  | none => 10

/-- Effective sort field: `pagination?.sortBy || 'createdAt'`. -/
def effSortBy (p : Option PaginationOptions) : String :=
  match p with
  | some p => if p.sortBy == "" then "createdAt" else p.sortBy
  | none => "createdAt"

/-- Effective sort order: `pagination?.sortOrder` (anything other than
`'asc'`, including absence, sorts descending). -/
def effSortOrder (p : Option PaginationOptions) : String :=
  match p with
  | some p => if p.sortOrder == "" then "desc" else p.sortOrder
  | none => "desc"

/-- The filtered and sorted document list `findAll` paginates
(`DeckModel.find(query).sort(sort)`). -/
def filteredSorted (store : List Deck) (filters : Option DeckFilters)
    (p : Option PaginationOptions) : List Deck :=
  insertionSortBy (deckLe (effSortBy p) (effSortOrder p))
    (store.filter (matchesQueryOpt filters))

/-- Model of `MongoDeckRepository.findAll`: builds the filter query, computes
`page`/`limit`/`skip`, sorts, applies `.skip(skip).limit(limit)`, counts the
matching documents and derives `totalPages = Math.ceil(total / limit)`. -/
def findAll (store : List Deck) (filters : Option DeckFilters)
    (pagination : Option PaginationOptions) : PaginatedResult :=
  let page := effPage pagination
  let limit := effLimit pagination
  let skip := (page - 1) * limit
  let sorted := filteredSorted store filters pagination
  let total := (store.filter (matchesQueryOpt filters)).length
  { data := (sorted.drop skip).take limit
    total := total
    page := page
    limit := limit
    totalPages := ceilDiv total limit }

/-! ## Keyword search (`MongoDeckRepository.searchByKeyword`)

The text engine itself is an external collaborator; its relevance scoring is
modelled at the granularity the weighted text index of `DeckSchema`
declares: a field that matches the keyword contributes its declared weight
(`name: 3`, `planeswalker: 2`, `description: 1`), matching is
case-insensitive containment, only matching documents are returned, and the
result is sorted descending by score (`$meta: 'textScore'`). -/

/-- Whether the keyword matches the indexed `name` field. -/
def nameMatches (d : Deck) (kw : String) : Bool :=
  containsCI d.name kw

/-- Whether the keyword matches the indexed `planeswalker` field. -/
def planeswalkerMatches (d : Deck) (kw : String) : Bool :=
  match d.planeswalker with
  | none => false
  | some p => containsCI p kw

/-- Whether the keyword matches the indexed `description` field. -/
def descriptionMatches (d : Deck) (kw : String) : Bool :=
  containsCI d.description kw

/-- Relevance score of a document under the text index weights of
`DeckSchema` (`name: 3`, `planeswalker: 2`, `description: 1`). -/
def textScore (d : Deck) (kw : String) : Nat :=
  (if nameMatches d kw then 3 else 0) +
  (if planeswalkerMatches d kw then 2 else 0) +
  (if descriptionMatches d kw then 1 else 0)

/-- Model of `MongoDeckRepository.searchByKeyword`: `$text` returns the
documents matching the keyword in an indexed field, sorted descending by
relevance score. -/
def searchByKeyword (store : List Deck) (kw : String) : List Deck :=
  insertionSortBy (fun a b => decide (textScore b kw ≤ textScore a kw))
    (store.filter (fun d => decide (0 < textScore d kw)))

/-! ## Use cases (`DeckUseCases`) -/

/-- Model of `DeckEntity.validateDeck` (run by the `DeckEntity` constructor):
name, description and storage location non-blank, at least one color. -/
def entityValid (req : CreateDeckRequest) : Bool :=
  trimStr req.name != "" &&
  trimStr req.description != "" &&
  !req.colors.isEmpty &&
  trimStr req.storageLocation != ""

/-- Model of `DeckUseCases.createDeck`: rejects with a conflict error when
`findByName` (case-insensitive) finds an existing deck, then constructs the
entity (whose constructor validates) and persists it via the repository.
`freshId`/`now` stand for the server-assigned ObjectId and clock. -/
def createDeck (store : List Deck) (req : CreateDeckRequest) (freshId : String)
    (now : Nat) : Except UCError Deck × List Deck :=
  match findByName store req.name with
  | some _ => (Except.error UCError.conflict, store)
  | none =>
    if !entityValid req then (Except.error UCError.validation, store)
    else repoCreate store req freshId now

/-- Model of `DeckUseCases.updateDeck`: not-found error when the target does
not exist; when the request carries a truthy name different from the current
one, a case-insensitive `findByName` over ALL records guards the rename
(conflict when anything matches); then the repository update runs. -/
def updateDeck (store : List Deck) (id : String) (req : UpdateDeckRequest)
    (now : Nat) : Except UCError (Option Deck) × List Deck :=
  match findById store id with
  | none => (Except.error UCError.notFound, store)
  | some existing =>
    let nameConflict : Bool :=
      match req.name with
      | some n => n != "" && n != existing.name && (findByName store n).isSome
      | none => false
    if nameConflict then (Except.error UCError.conflict, store)
    else repoUpdate store id req now

/-! ## Controller (`DeckController.getAllDecks`) -/

/-- Query string of `GET /decks` after `parseInt`: `page`/`limit` are the
integer parse results (`none` for absent or `NaN`), the remaining
parameters are raw strings. -/
structure ListRequestQuery where
  page : Option Int
  limit : Option Int
  sortBy : Option String
  sortOrder : Option String
  deckType : Option String
  gameStage : Option String
  tierRating : Option String
  isComplete : Option String
  hasCardSleeves : Option String
  storageLocation : Option String
deriving DecidableEq, Repr

/-- Pagination options built by `DeckController.getAllDecks`:
`parseInt(...) || 1` and `parseInt(...) || 10` defaults, then the clamps
`if (page < 1) page = 1` and `if (limit < 1 || limit > 100) limit = 10`. -/
def controllerPagination (q : ListRequestQuery) : PaginationOptions :=
  let page : Int := match q.page with
    | some n => if n == 0 then 1 else n
    | none => 1
  let limit : Int := match q.limit with
    | some n => if n == 0 then 10 else n
    | none => 10
  let page := if page < 1 then 1 else page
  let limit := if limit < 1 || limit > 100 then 10 else limit
  { page := page.toNat
    limit := limit.toNat
    sortBy := match q.sortBy with
      | some s => if s == "" then "createdAt" else s
      | none => "createdAt"
    sortOrder := match q.sortOrder with
      | some s => if s == "" then "desc" else s
      | none => "desc" }

/-- Filters built by `DeckController.getAllDecks`: the boolean filters are
set only for truthy query values (`q.isComplete ? q.isComplete === 'true'
: undefined`), the rest pass through as strings. -/
def controllerFilters (q : ListRequestQuery) : DeckFilters :=
  { deckType := q.deckType
    gameStage := q.gameStage
    tierRating := q.tierRating
    isComplete := match q.isComplete with
      | some s => if s == "" then none else some (s == "true")
      | none => none
    hasCardSleeves := match q.hasCardSleeves with
      | some s => if s == "" then none else some (s == "true")
      | none => none
    storageLocation := q.storageLocation }

/-- The `GET /decks` pipeline: controller parsing followed by the
use-case/repository query. -/
def getAllDecksEndpoint (store : List Deck) (q : ListRequestQuery) : PaginatedResult :=
  findAll store (some (controllerFilters q)) (some (controllerPagination q))

/-! ## Request validation (Joi schemas, `validationMiddleware`)

A request body is modelled field-by-field with `Option` for absence; a
present field is assumed to carry the declared primitive type (Joi's type
coercion is out of scope).  Joi's `.trim()` under the default
`convert: true` trims the value rather than failing, so length checks apply
to the trimmed value.  Joi can report several rule failures for a single
field; the model keeps the first per field, which is all the claims need. -/

/-- A `{field, message}` pair of the `details` list of a 400 response. -/
structure FieldError where
  field : String
  message : String
deriving DecidableEq, Repr

/-- A raw request body for create/update validation. -/
structure RawDeckBody where
  name : Option String
  description : Option String
  colors : Option (List String)
  tierRating : Option String
  hasCardSleeves : Option Bool
  isComplete : Option Bool
  deckType : Option String
  gameStage : Option String
  storageLocation : Option String
  descriptiveImage : Option String
  planeswalker : Option String
deriving DecidableEq, Repr

/-- Simplified model of Joi's `.uri()` rule: the value has a URI scheme. -/
def joiUriValid (s : String) : Bool :=
  infixOf "://".data s.data && !(s.startsWith "://") && s != ""

/-- Per-field check for a required, trimmed, 1..max string (the shape of the
`name`, `description` and `storageLocation` rules of `createDeckSchema`). -/
def checkRequiredString (fieldName : String) (v : Option String) (maxLen : Nat)
    (requiredMsg emptyMsg maxMsg : String) : Option FieldError :=
  match v with
  | none => some ⟨fieldName, requiredMsg⟩
  | some s =>
    let t := trimStr s
    if t == "" then some ⟨fieldName, emptyMsg⟩
    else if maxLen < t.length then some ⟨fieldName, maxMsg⟩
    else none

/-- Per-field check for a required enum-valued string. -/
def checkRequiredEnum (fieldName : String) (v : Option String)
    (values : List String) (requiredMsg invalidMsg : String) : Option FieldError :=
  match v with
  | none => some ⟨fieldName, requiredMsg⟩
  | some s => if values.contains s then none else some ⟨fieldName, invalidMsg⟩

/-- The `colors` rule of `createDeckSchema`: required array of 1..5 valid
magic colors. -/
def checkColorsRequired (v : Option (List String)) : Option FieldError :=
  match v with
  | none => some ⟨"colors", "\"colors\" is required"⟩
  | some l =>
    if !l.all (fun c => magicColors.contains c) then
      some ⟨"colors", "Invalid magic color"⟩
    else if l.length < 1 then some ⟨"colors", "At least one color is required"⟩
    else if 5 < l.length then
      some ⟨"colors", "A deck cannot have more than 5 colors"⟩
    else none

/-- The optional `descriptiveImage` rule: a URI when present. -/
def checkImage (v : Option String) : Option FieldError :=
  match v with
  | none => none
  | some s =>
    if joiUriValid s then none
    else some ⟨"descriptiveImage", "Descriptive image must be a valid URL"⟩

/-- The optional `planeswalker` rule: trimmed length at most 50 when present. -/
def checkPlaneswalker (v : Option String) : Option FieldError :=
  match v with
  | none => none
  | some s =>
    if 50 < (trimStr s).length then
      some ⟨"planeswalker", "Planeswalker name cannot exceed 50 characters"⟩
    else none

/-- All violations `createDeckSchema` reports for a body under
`abortEarly: false`, in schema key order. -/
def createDeckIssues (b : RawDeckBody) : List FieldError :=
  [checkRequiredString "name" b.name 100 "\"name\" is required"
      "Deck name is required" "Deck name cannot exceed 100 characters",
   checkRequiredString "description" b.description 500 "\"description\" is required"
      "Description is required" "Description cannot exceed 500 characters",
   checkColorsRequired b.colors,
   checkRequiredEnum "tierRating" b.tierRating tierRatings
      "\"tierRating\" is required" "Tier rating must be S, A, B, C, or D",
   (match b.hasCardSleeves with
    | none => some ⟨"hasCardSleeves", "Card sleeves status is required"⟩
    | some _ => none),
   (match b.isComplete with
    | none => some ⟨"isComplete", "Completion status is required"⟩
    | some _ => none),
   checkRequiredEnum "deckType" b.deckType deckTypes
      "\"deckType\" is required" "Deck type must be AGGRO, COMBO, or CONTROL",
   checkRequiredEnum "gameStage" b.gameStage gameStages
      "\"gameStage\" is required" "Game stage must be EARLY, MID, or LATE",
   checkRequiredString "storageLocation" b.storageLocation 100
      "\"storageLocation\" is required" "Storage location is required"
      "Storage location cannot exceed 100 characters",
   checkImage b.descriptiveImage,
   checkPlaneswalker b.planeswalker].filterMap id

/-- Per-field check for an optional, trimmed, 1..max string (the shape of
the optional string rules of `updateDeckSchema`). -/
def checkOptionalString (fieldName : String) (v : Option String) (maxLen : Nat) :
    Option FieldError :=
  match v with
  | none => none
  | some s =>
    let t := trimStr s
    if t == "" then some ⟨fieldName, "\"" ++ fieldName ++ "\" is not allowed to be empty"⟩
    else if maxLen < t.length then
      some ⟨fieldName, "\"" ++ fieldName ++ "\" length must be less than or equal to "
        ++ toString maxLen ++ " characters long"⟩
    else none

/-- Per-field check for an optional enum-valued string of `updateDeckSchema`. -/
def checkOptionalEnum (fieldName : String) (v : Option String)
    (values : List String) : Option FieldError :=
  match v with
  | none => none
  | some s =>
    if values.contains s then none
    else some ⟨fieldName, "\"" ++ fieldName ++ "\" must be one of the allowed values"⟩

/-- The optional `colors` rule of `updateDeckSchema`. -/
def checkColorsOptional (v : Option (List String)) : Option FieldError :=
  match v with
  | none => none
  | some l =>
    if !l.all (fun c => magicColors.contains c) then
      some ⟨"colors", "\"colors\" contains an invalid value"⟩
    else if l.length < 1 then
      some ⟨"colors", "\"colors\" must contain at least 1 items"⟩
    else if 5 < l.length then
      some ⟨"colors", "\"colors\" must contain less than or equal to 5 items"⟩
    else none

/-- Whether an update body carries no field at all (`updateDeckSchema` ends
in `.min(1)`). -/
def updateBodyEmpty (b : RawDeckBody) : Bool :=
  b.name.isNone && b.description.isNone && b.colors.isNone &&
  b.tierRating.isNone && b.hasCardSleeves.isNone && b.isComplete.isNone &&
  b.deckType.isNone && b.gameStage.isNone && b.storageLocation.isNone &&
  b.descriptiveImage.isNone && b.planeswalker.isNone

/-- All violations `updateDeckSchema` reports for a body under
`abortEarly: false`. -/
def updateDeckIssues (b : RawDeckBody) : List FieldError :=
  ([checkOptionalString "name" b.name 100,
    checkOptionalString "description" b.description 500,
    checkColorsOptional b.colors,
    checkOptionalEnum "tierRating" b.tierRating tierRatings,
    checkOptionalEnum "deckType" b.deckType deckTypes,
    checkOptionalEnum "gameStage" b.gameStage gameStages,
    checkOptionalString "storageLocation" b.storageLocation 100,
    checkImage b.descriptiveImage,
    checkPlaneswalker b.planeswalker].filterMap id) ++
  (if updateBodyEmpty b then [⟨"", "\"value\" must have at least 1 key"⟩] else [])

/-- Model of `validateCreateDeck`: a 400 response carrying ALL collected
`{field, message}` violations (`abortEarly: false`), or the validated body. -/
def validateCreateDeck (b : RawDeckBody) : Except (List FieldError) RawDeckBody :=
  match createDeckIssues b with
  | [] => Except.ok b
  | errs => Except.error errs

/-- Model of `validateUpdateDeck`: a 400 response carrying ALL collected
`{field, message}` violations (`abortEarly: false`), or the validated body. -/
def validateUpdateDeck (b : RawDeckBody) : Except (List FieldError) RawDeckBody :=
  match updateDeckIssues b with
  | [] => Except.ok b
  | errs => Except.error errs

/-! ## Sample data used to instantiate the theorems -/

/-- A sample stored deck (as `create` would have persisted it). -/
def deckA : Deck :=
  { id := "507f1f77bcf86cd799439011"
    name := "Lightning Aggro"
    description := "Fast red aggro deck"
    colors := ["R"]
    tierRating := "A"
    hasCardSleeves := true
    isComplete := true
    descriptiveImage := none
    deckType := "AGGRO"
    gameStage := "EARLY"
    storageLocation := "Red Box 1"
    planeswalker := some "Chandra"
    createdAt := 1
    updatedAt := 1 }

/-- A second sample stored deck. -/
def deckB : Deck :=
  { id := "507f1f77bcf86cd799439012"
    name := "Storm Combo"
    description := "Spell velocity combo deck"
    colors := ["U", "R"]
    tierRating := "S"
    hasCardSleeves := false
    isComplete := false
    descriptiveImage := none
    deckType := "COMBO"
    gameStage := "LATE"
    storageLocation := "Blue Shelf"
    planeswalker := none
    createdAt := 2
    updatedAt := 2 }

/-- A deck whose name contains the keyword `dragon`. -/
def deckDragonName : Deck :=
  { id := "507f1f77bcf86cd799439013"
    name := "Dragon Ramp"
    description := "Big creatures and mana acceleration"
    colors := ["G", "R"]
    tierRating := "B"
    hasCardSleeves := true
    isComplete := true
    descriptiveImage := none
    deckType := "COMBO"
    gameStage := "LATE"
    storageLocation := "Green Box"
    planeswalker := none
    createdAt := 3
    updatedAt := 3 }

/-- A deck where only the description contains the keyword `dragon`. -/
def deckDragonDesc : Deck :=
  { id := "507f1f77bcf86cd799439014"
    name := "Green Stompy"
    description := "Ramp into huge dragon finishers"
    colors := ["G"]
    tierRating := "C"
    hasCardSleeves := false
    isComplete := false
    descriptiveImage := none
    deckType := "AGGRO"
    gameStage := "MID"
    storageLocation := "Green Box"
    planeswalker := none
    createdAt := 4
    updatedAt := 4 }

/-- A sample create request with a fresh, valid shape. -/
def sampleCreateReq : CreateDeckRequest :=
  { name := "lightning aggro"
    description := "Fast red aggro deck with lightning bolts"
    colors := ["R"]
    tierRating := "A"
    hasCardSleeves := true
    isComplete := true
    deckType := "AGGRO"
    gameStage := "EARLY"
    storageLocation := "Red Box 1"
    descriptiveImage := none
    planeswalker := some "Chandra" }

/-- The sample create request with an upper-cased name variant. -/
def sampleCreateReqUpper : CreateDeckRequest :=
  { sampleCreateReq with name := "LIGHTNING AGGRO" }

/-- The deck the sample create request persists on an empty store. -/
def deckCreated : Deck :=
  { id := "507f1f77bcf86cd799439011"
    name := "Lightning Aggro"
    description := "Fast red aggro deck with lightning bolts"
    colors := ["R"]
    tierRating := "A"
    hasCardSleeves := true
    isComplete := true
    descriptiveImage := none
    deckType := "AGGRO"
    gameStage := "EARLY"
    storageLocation := "Red Box 1"
    planeswalker := some "Chandra"
    createdAt := 1
    updatedAt := 1 }

/-- An update request that carries no field. -/
def emptyUpdateReq : UpdateDeckRequest :=
  { name := none, description := none, colors := none, tierRating := none
    hasCardSleeves := none, isComplete := none, deckType := none
    gameStage := none, storageLocation := none, descriptiveImage := none
    planeswalker := none }

/-- A list query whose page and limit are both out of range. -/
def sampleQueryOutOfRange : ListRequestQuery :=
  { page := some (-5), limit := some 500, sortBy := none, sortOrder := none
    deckType := none, gameStage := none, tierRating := none, isComplete := none
    hasCardSleeves := none, storageLocation := none }

/-- A list query with no parameter at all. -/
def sampleQueryEmpty : ListRequestQuery :=
  { page := none, limit := none, sortBy := none, sortOrder := none
    deckType := none, gameStage := none, tierRating := none, isComplete := none
    hasCardSleeves := none, storageLocation := none }

/-- An update request re-submitting `deckA`'s own name with a new
description. -/
def sameNameUpdateReq : UpdateDeckRequest :=
  { emptyUpdateReq with
      name := some "Lightning Aggro"
      description := some "Tuned list" }

/-- A request body violating the validation schema in several fields. -/
def badBody : RawDeckBody :=
  { name := none, description := some " ", colors := some []
    tierRating := some "X", hasCardSleeves := none, isComplete := some true
    deckType := some "AGGRO", gameStage := some "EARLY"
    storageLocation := some "Box", descriptiveImage := none, planeswalker := none }

/-! ## General lemmas: sorting -/

theorem mem_orderedInsertBy (le : α → α → Bool) (a b : α) (l : List α) :
    b ∈ orderedInsertBy le a l ↔ b = a ∨ b ∈ l := by
  induction l with
  | nil => simp [orderedInsertBy]
  | cons c l ih =>
    simp only [orderedInsertBy]
    split
    · simp [List.mem_cons]
    · simp [List.mem_cons, ih]
      tauto

theorem length_orderedInsertBy (le : α → α → Bool) (a : α) (l : List α) :
    (orderedInsertBy le a l).length = l.length + 1 := by
  induction l with
  | nil => rfl
  | cons c l ih =>
    simp only [orderedInsertBy]
    split
    · simp
    · simp [ih]

theorem mem_insertionSortBy (le : α → α → Bool) (a : α) (l : List α) :
    a ∈ insertionSortBy le l ↔ a ∈ l := by
  induction l with
  | nil => simp [insertionSortBy]
  | cons b l ih =>
    simp [insertionSortBy, mem_orderedInsertBy, ih, List.mem_cons]

theorem length_insertionSortBy (le : α → α → Bool) (l : List α) :
    (insertionSortBy le l).length = l.length := by
  induction l with
  | nil => rfl
  | cons b l ih =>
    simp [insertionSortBy, length_orderedInsertBy, ih]

theorem pairwise_orderedInsertBy (le : α → α → Bool)
    (htot : ∀ a b, le a b = true ∨ le b a = true)
    (htrans : ∀ a b c, le a b = true → le b c = true → le a c = true)
    (a : α) (l : List α) (h : l.Pairwise (fun x y => le x y = true)) :
    (orderedInsertBy le a l).Pairwise (fun x y => le x y = true) := by
  induction l with
  | nil => simp [orderedInsertBy]
  | cons b l ih =>
    rcases h with _ | ⟨hb, hl⟩
    simp only [orderedInsertBy]
    split
    · rename_i hab
      refine List.Pairwise.cons ?_ (List.Pairwise.cons hb hl)
      intro x hx
      rcases List.mem_cons.mp hx with rfl | hx
      · exact hab
      · exact htrans a b x hab (hb x hx)
    · rename_i hab
      have hba : le b a = true := by
        rcases htot a b with h1 | h1
        · exact absurd h1 hab
        · exact h1
      refine List.Pairwise.cons ?_ (ih hl)
      intro x hx
      rcases (mem_orderedInsertBy le a x l).mp hx with rfl | hx
      · exact hba
      · exact hb x hx

theorem pairwise_insertionSortBy (le : α → α → Bool)
    (htot : ∀ a b, le a b = true ∨ le b a = true)
    (htrans : ∀ a b c, le a b = true → le b c = true → le a c = true)
    (l : List α) :
    (insertionSortBy le l).Pairwise (fun x y => le x y = true) := by
  induction l with
  | nil => simp [insertionSortBy]
  | cons b l ih =>
    exact pairwise_orderedInsertBy le htot htrans b _ ih

/-! ## General lemmas: ASCII case mapping and title-casing -/

theorem char_eq_of_toNat_eq {c d : Char} (h : c.toNat = d.toNat) : c = d :=
  Char.eq_of_val_eq (UInt32.ext h)

theorem toNat_ofNat_valid (n : Nat) (h : n.isValidChar) : (Char.ofNat n).toNat = n := by
  unfold Char.ofNat
  rw [dif_pos h]
  rfl

theorem toNat_toUpper (c : Char) :
    c.toUpper.toNat = if c.toNat ≥ 97 ∧ c.toNat ≤ 122 then c.toNat - 32 else c.toNat := by
  unfold Char.toUpper
  by_cases h : c.toNat ≥ 97 ∧ c.toNat ≤ 122
  · rw [if_pos h, if_pos h]
    exact toNat_ofNat_valid _ (Or.inl (by omega))
  · rw [if_neg h, if_neg h]

theorem toNat_toLower (c : Char) :
    c.toLower.toNat = if c.toNat ≥ 65 ∧ c.toNat ≤ 90 then c.toNat + 32 else c.toNat := by
  unfold Char.toLower
  by_cases h : c.toNat ≥ 65 ∧ c.toNat ≤ 90
  · rw [if_pos h, if_pos h]
    exact toNat_ofNat_valid _ (Or.inl (by omega))
  · rw [if_neg h, if_neg h]

theorem toLower_toUpper (c : Char) : c.toUpper.toLower = c.toLower := by
  apply char_eq_of_toNat_eq
  rw [toNat_toLower, toNat_toLower, toNat_toUpper]
  by_cases h : c.toNat ≥ 97 ∧ c.toNat ≤ 122
  · rw [if_pos h, if_pos (by omega), if_neg (by omega)]
    omega
  · rw [if_neg h]

theorem toLower_toLower (c : Char) : c.toLower.toLower = c.toLower := by
  apply char_eq_of_toNat_eq
  rw [toNat_toLower, toNat_toLower]
  by_cases h : c.toNat ≥ 65 ∧ c.toNat ≤ 90
  · rw [if_pos h, if_neg (by omega)]
  · rw [if_neg h, if_neg h]

theorem splitOnSpace_ne_nil (l : List Char) : splitOnSpace l ≠ [] := by
  cases l with
  | nil => simp [splitOnSpace]
  | cons c rest =>
    simp only [splitOnSpace]
    split
    · simp
    · split <;> simp

theorem joinSpace_cons_cons (w : List Char) (v : List Char) (ws : List (List Char)) :
    joinSpace (w :: v :: ws) = w ++ ' ' :: joinSpace (v :: ws) := rfl

theorem joinSpace_splitOnSpace (l : List Char) : joinSpace (splitOnSpace l) = l := by
  induction l with
  | nil => rfl
  | cons c rest ih =>
    simp only [splitOnSpace]
    split
    · rename_i hc
      subst hc
      rcases hr : splitOnSpace rest with _ | ⟨w, ws⟩
      · exact absurd hr (splitOnSpace_ne_nil rest)
      · rw [hr] at ih
        rw [joinSpace_cons_cons]
        simp [ih]
    · rcases hr : splitOnSpace rest with _ | ⟨w, ws⟩
      · exact absurd hr (splitOnSpace_ne_nil rest)
      · rw [hr] at ih
        cases ws with
        | nil => simpa [joinSpace] using ih
        | cons v vs =>
          rw [joinSpace_cons_cons] at ih ⊢
          simp [ih]

theorem map_toLower_joinSpace : ∀ ws : List (List Char),
    (joinSpace ws).map Char.toLower = joinSpace (ws.map (List.map Char.toLower))
  | [] => rfl
  | [w] => rfl
  | w :: v :: ws => by
    rw [joinSpace_cons_cons, List.map_cons, List.map_cons]
    rw [joinSpace_cons_cons, List.map_append, List.map_cons]
    rw [show (' '.toLower) = ' ' from rfl]
    rw [map_toLower_joinSpace (v :: ws)]
    rfl

theorem map_toLower_titleCaseWord (w : List Char) :
    (titleCaseWord w).map Char.toLower = w.map Char.toLower := by
  cases w with
  | nil => rfl
  | cons c cs =>
    simp [titleCaseWord, toLower_toUpper, List.map_map, Function.comp_def, toLower_toLower]

theorem lowerStr_titleCase (s : String) : lowerStr (titleCase s) = lowerStr s := by
  unfold lowerStr titleCase
  congr 1
  show (joinSpace ((splitOnSpace s.data).map titleCaseWord)).map Char.toLower
      = s.data.map Char.toLower
  rw [map_toLower_joinSpace, List.map_map]
  have h1 : (List.map Char.toLower ∘ titleCaseWord) = List.map Char.toLower :=
    funext map_toLower_titleCaseWord
  rw [h1, ← map_toLower_joinSpace, joinSpace_splitOnSpace]

/-! ## General lemmas: arithmetic, comparators, small list facts -/

theorem le_ceilDiv_mul (total limit : Nat) (h : 0 < limit) :
    total ≤ ceilDiv total limit * limit := by
  unfold ceilDiv
  have hd := Nat.div_add_mod (total + limit - 1) limit
  rw [Nat.mul_comm] at hd
  have hm := Nat.mod_lt (total + limit - 1) h
  generalize hq : (total + limit - 1) / limit * limit = x at hd ⊢
  generalize hr : (total + limit - 1) % limit = r at hd hm
  omega

theorem ceilDiv_mul_lt (total limit : Nat) (h : 0 < limit) :
    ceilDiv total limit * limit < total + limit := by
  unfold ceilDiv
  have hd := Nat.div_add_mod (total + limit - 1) limit
  rw [Nat.mul_comm] at hd
  have hm := Nat.mod_lt (total + limit - 1) h
  generalize hq : (total + limit - 1) / limit * limit = x at hd ⊢
  generalize hr : (total + limit - 1) % limit = r at hd hm
  omega

theorem strLe_total (a b : String) : strLe a b = true ∨ strLe b a = true := by
  unfold strLe
  rcases le_total a b with h | h
  · exact Or.inl (decide_eq_true h)
  · exact Or.inr (decide_eq_true h)

theorem strLe_trans (a b c : String) (h1 : strLe a b = true) (h2 : strLe b c = true) :
    strLe a c = true := by
  unfold strLe at h1 h2 ⊢
  exact decide_eq_true (le_trans (of_decide_eq_true h1) (of_decide_eq_true h2))

theorem sortKeyLe_total (s : String) (a b : Deck) :
    sortKeyLe s a b = true ∨ sortKeyLe s b a = true := by
  unfold sortKeyLe
  split_ifs
  · exact strLe_total a.name b.name
  · rcases Nat.le_total a.createdAt b.createdAt with h | h
    · exact Or.inl (decide_eq_true h)
    · exact Or.inr (decide_eq_true h)
  · rcases Nat.le_total a.updatedAt b.updatedAt with h | h
    · exact Or.inl (decide_eq_true h)
    · exact Or.inr (decide_eq_true h)
  · exact strLe_total a.tierRating b.tierRating
  · exact Or.inl rfl

theorem sortKeyLe_trans (s : String) (a b c : Deck)
    (h1 : sortKeyLe s a b = true) (h2 : sortKeyLe s b c = true) :
    sortKeyLe s a c = true := by
  unfold sortKeyLe at h1 h2 ⊢
  split_ifs at h1 h2 ⊢
  · exact strLe_trans _ _ _ h1 h2
  · exact decide_eq_true (le_trans (of_decide_eq_true h1) (of_decide_eq_true h2))
  · exact decide_eq_true (le_trans (of_decide_eq_true h1) (of_decide_eq_true h2))
  · exact strLe_trans _ _ _ h1 h2
  · rfl

theorem deckLe_total (sB sO : String) (a b : Deck) :
    deckLe sB sO a b = true ∨ deckLe sB sO b a = true := by
  unfold deckLe
  split_ifs
  · exact sortKeyLe_total sB a b
  · exact (sortKeyLe_total sB b a).symm.imp id id |>.symm

theorem deckLe_trans (sB sO : String) (a b c : Deck)
    (h1 : deckLe sB sO a b = true) (h2 : deckLe sB sO b c = true) :
    deckLe sB sO a c = true := by
  unfold deckLe at h1 h2 ⊢
  split_ifs at h1 h2 ⊢
  · exact sortKeyLe_trans sB a b c h1 h2
  · exact sortKeyLe_trans sB c b a h2 h1

theorem two_le_length_of_mem_ne {l : List α} {a b : α}
    (ha : a ∈ l) (hb : b ∈ l) (hne : a ≠ b) : 2 ≤ l.length := by
  cases l with
  | nil => cases ha
  | cons x t =>
    cases t with
    | nil =>
      rcases List.mem_singleton.mp ha with rfl
      rcases List.mem_singleton.mp hb with rfl
      exact absurd rfl hne
    | cons y u => simp [List.length_cons]

theorem lowerStr_congr {a b : String} (h : a = b) : lowerStr a = lowerStr b := by
  rw [h]

theorem findByName_eq_none {store : List Deck} {n : String}
    (h : ∀ x ∈ store, lowerStr x.name ≠ lowerStr n) : findByName store n = none := by
  unfold findByName
  rw [List.find?_eq_none]
  intro x hx
  simpa using h x hx

theorem findByName_isSome {store : List Deck} {n : String} {x : Deck}
    (hx : x ∈ store) (h : lowerStr x.name = lowerStr n) :
    (findByName store n).isSome = true := by
  unfold findByName
  rw [List.find?_isSome]
  exact ⟨x, hx, by simpa using h⟩

theorem findById_mem {store : List Deck} {id : String} {d : Deck}
    (h : findById store id = some d) : d ∈ store ∧ d.id = id := by
  unfold findById at h
  split at h
  · cases h
  · exact ⟨List.mem_of_find?_eq_some h, by simpa using List.find?_some h⟩

theorem findById_valid {store : List Deck} {id : String} {d : Deck}
    (h : findById store id = some d) : isValidObjectId id = true := by
  unfold findById at h
  split at h
  · cases h
  · rename_i hv
    simpa using hv

theorem findById_find? {store : List Deck} {id : String} {d : Deck}
    (h : findById store id = some d) :
    store.find? (fun x => x.id == id) = some d := by
  unfold findById at h
  split at h
  · cases h
  · exact h

theorem updateDeck_ok_eq {store : List Deck} {id : String} {req : UpdateDeckRequest}
    {now : Nat} {d d' : Deck} {store' : List Deck}
    (hd : findById store id = some d)
    (h : updateDeck store id req now = (Except.ok (some d'), store')) :
    d' = applyUpdates d req now ∧
    store' = store.map (fun x => if x.id == id then applyUpdates d req now else x) := by
  unfold updateDeck at h
  rw [hd] at h
  dsimp only at h
  by_cases hb : (match req.name with
    | some n => n != "" && n != d.name && (findByName store n).isSome
    | none => false) = true
  · rw [if_pos hb] at h
    simp at h
  · rw [if_neg hb] at h
    unfold repoUpdate at h
    simp only [findById_valid hd, Bool.not_true, Bool.false_eq_true, if_false,
      findById_find? hd] at h
    by_cases hs : schemaValid (applyUpdates d req now) = true
    · simp only [hs, Bool.not_true, Bool.false_eq_true, if_false] at h
      by_cases hany : store.any
          (fun x => x.id != id && x.name == (applyUpdates d req now).name) = true
      · rw [if_pos hany] at h
        simp at h
      · rw [if_neg hany] at h
        simp only [Prod.mk.injEq, Except.ok.injEq, Option.some.injEq] at h
        exact ⟨h.1.symm, h.2.symm⟩
    · simp [hs] at h

theorem createDeck_ok_name {store : List Deck} {req : CreateDeckRequest}
    {freshId : String} {now : Nat} {d' : Deck} {store' : List Deck}
    (h : createDeck store req freshId now = (Except.ok d', store')) :
    d'.name = titleCase (trimStr req.name) := by
  unfold createDeck repoCreate mongoSave at h
  rcases hfn : findByName store req.name with _ | d0 <;> rw [hfn] at h
  · dsimp only at h
    split at h
    · simp at h
    · split at h
      · simp at h
      · split at h
        · simp at h
        · simp only [Prod.mk.injEq, Except.ok.injEq] at h
          rw [← h.1]
          simp [trimDeck, deckOfRequest]
  · simp at h

theorem findAll_data (store : List Deck) (f : Option DeckFilters)
    (p : Option PaginationOptions) :
    (findAll store f p).data
      = ((filteredSorted store f p).drop ((effPage p - 1) * effLimit p)).take
          (effLimit p) := rfl

theorem findAll_total (store : List Deck) (f : Option DeckFilters)
    (p : Option PaginationOptions) :
    (findAll store f p).total = (store.filter (matchesQueryOpt f)).length := rfl

theorem findAll_page (store : List Deck) (f : Option DeckFilters)
    (p : Option PaginationOptions) : (findAll store f p).page = effPage p := rfl

theorem findAll_limit (store : List Deck) (f : Option DeckFilters)
    (p : Option PaginationOptions) : (findAll store f p).limit = effLimit p := rfl

theorem findAll_totalPages (store : List Deck) (f : Option DeckFilters)
    (p : Option PaginationOptions) :
    (findAll store f p).totalPages
      = ceilDiv (store.filter (matchesQueryOpt f)).length (effLimit p) := rfl

theorem effLimit_pos (p : Option PaginationOptions) : 0 < effLimit p := by
  unfold effLimit
  rcases p with _ | p
  · decide
  · rcases hl : p.limit with _ | n
    · simp [hl]
    · simp [hl]

theorem effPage_pos (p : Option PaginationOptions) : 0 < effPage p := by
  unfold effPage
  rcases p with _ | p
  · decide
  · rcases hl : p.page with _ | n
    · simp [hl]
    · simp [hl]

theorem length_filteredSorted (store : List Deck) (f : Option DeckFilters)
    (p : Option PaginationOptions) :
    (filteredSorted store f p).length = (store.filter (matchesQueryOpt f)).length := by
  unfold filteredSorted
  exact length_insertionSortBy _ _

theorem mem_filteredSorted (store : List Deck) (f : Option DeckFilters)
    (p : Option PaginationOptions) (d : Deck) :
    d ∈ filteredSorted store f p ↔ d ∈ store ∧ matchesQueryOpt f d = true := by
  unfold filteredSorted
  rw [mem_insertionSortBy, List.mem_filter]

/-! ## Claims -/

/-- C1: for every create request whose name already exists case-insensitively
(any case variant of an existing deck's name), `createDeck` fails with a
conflict error and no record is added to the store; for every create request
with a unique (trimmed) name that passes entity and schema validation, it
constructs, validates and persists a new entity, whose stored name is the
title-cased request name. -/
theorem createDeck_conflict_and_unique (store : List Deck) (req : CreateDeckRequest)
    (freshId : String) (now : Nat) :
    ((∃ x ∈ store, lowerStr x.name = lowerStr req.name) →
      createDeck store req freshId now = (Except.error UCError.conflict, store)) ∧
    ((∀ x ∈ store, lowerStr x.name ≠ lowerStr req.name) →
      trimStr req.name = req.name →
      entityValid req = true →
      schemaValid (trimDeck (deckOfRequest req freshId now)) = true →
      ∃ d', createDeck store req freshId now = (Except.ok d', store ++ [d']) ∧
        d'.name = titleCase req.name) := by
  constructor
  · rintro ⟨x, hx, hxn⟩
    unfold createDeck
    rcases hfn : findByName store req.name with _ | d
    · have := findByName_isSome hx hxn
      rw [hfn] at this
      cases this
    · rfl
  · intro hno htrim hent hschema
    unfold createDeck
    rw [findByName_eq_none hno, hent]
    unfold repoCreate mongoSave
    simp only [hschema, Bool.not_true, Bool.false_eq_true, if_false]
    have hname : (trimDeck (deckOfRequest req freshId now)).name = req.name := by
      simp [trimDeck, deckOfRequest, htrim]
    have hany : store.any
        (fun x => x.name == titleCase (trimDeck (deckOfRequest req freshId now)).name)
        = false := by
      rw [List.any_eq_false]
      intro x hx hcon
      apply hno x hx
      have heq : x.name = titleCase (trimDeck (deckOfRequest req freshId now)).name :=
        by simpa using hcon
      rw [hname] at heq
      rw [lowerStr_congr heq, lowerStr_titleCase]
    rw [if_neg ?_]
    · exact ⟨_, rfl, by rw [hname]⟩
    · rw [hany]
      simp

/-- C1 witness: with `Lightning Aggro` stored, creating `lightning aggro`
conflicts and leaves the store unchanged; on an empty store the same request
persists a deck named `Lightning Aggro`. -/
theorem createDeck_conflict_and_unique_witness :
    createDeck [deckA] sampleCreateReq "507f1f77bcf86cd799439099" 5
      = (Except.error UCError.conflict, [deckA]) ∧
    (∃ d', createDeck [] sampleCreateReq "507f1f77bcf86cd799439099" 5
      = (Except.ok d', [] ++ [d']) ∧ d'.name = titleCase sampleCreateReq.name) := by
  constructor
  · exact (createDeck_conflict_and_unique [deckA] sampleCreateReq
      "507f1f77bcf86cd799439099" 5).1 ⟨deckA, by decide, by decide⟩
  · exact (createDeck_conflict_and_unique [] sampleCreateReq
      "507f1f77bcf86cd799439099" 5).2 (by intro x hx; cases hx)
      (by decide) (by decide) (by decide)

/-- C2 counterexample: the store holds only the target deck (so the changed
name collides with no OTHER record), the update renames the deck to a case
variant of its own name, yet `updateDeck` fails with a conflict error
instead of merging and persisting — the uniqueness re-check is not
restricted to records other than the target. -/
theorem updateDeck_self_case_variant_conflict :
    updateDeck [deckA] "507f1f77bcf86cd799439011"
        { emptyUpdateReq with name := some "LIGHTNING AGGRO" } 5
      = (Except.error UCError.conflict, [deckA]) ∧
    [deckA].filter (fun x => x.id != "507f1f77bcf86cd799439011") = [] ∧
    lowerStr "LIGHTNING AGGRO" = lowerStr deckA.name := by
  refine ⟨by decide, by decide, by decide⟩

/-- C2 (amended): `updateDeck` fails with NotFound when the target does not
exist.  When the request supplies a non-empty name string-different from the
target's current name, the uniqueness re-check runs case-insensitively
against ALL records — including the target itself — and fails with Conflict
on any match (in particular when the new name is a case variant of the
target's own name).  Only when no record at all matches the new name
case-insensitively (and the merged record passes validation) does the update
merge and persist. -/
theorem updateDeck_notFound_conflict_merge (store : List Deck) (id : String)
    (req : UpdateDeckRequest) (now : Nat) :
    (findById store id = none →
      updateDeck store id req now = (Except.error UCError.notFound, store)) ∧
    (∀ d n, findById store id = some d → req.name = some n → n ≠ "" →
      n ≠ d.name →
      (∃ x ∈ store, lowerStr x.name = lowerStr n) →
      updateDeck store id req now = (Except.error UCError.conflict, store)) ∧
    (∀ d n, findById store id = some d → req.name = some n → n ≠ "" →
      n ≠ d.name → trimStr n = n →
      (∀ x ∈ store, lowerStr x.name ≠ lowerStr n) →
      schemaValid (applyUpdates d req now) = true →
      updateDeck store id req now =
        (Except.ok (some (applyUpdates d req now)),
         store.map (fun x => if x.id == id then applyUpdates d req now else x))) := by
  refine ⟨?_, ?_, ?_⟩
  · intro h
    unfold updateDeck
    rw [h]
  · intro d n hd hreq hne hdiff ⟨x, hx, hxn⟩
    unfold updateDeck
    rw [hd, hreq]
    dsimp only
    have hcond : (n != "" && n != d.name && (findByName store n).isSome) = true := by
      rw [findByName_isSome hx hxn]
      simp [hne, hdiff]
    rw [if_pos hcond]
  · intro d n hd hreq hne hdiff htrim hno hschema
    unfold updateDeck
    rw [hd, hreq]
    dsimp only
    have hcond : (n != "" && n != d.name && (findByName store n).isSome) = false := by
      rw [findByName_eq_none hno]
      simp
    rw [if_neg (by rw [hcond]; simp)]
    unfold repoUpdate
    rw [findById_valid hd]
    simp only [Bool.not_true, Bool.false_eq_true, if_false]
    rw [findById_find? hd]
    have hname : (applyUpdates d req now).name = n := by
      simp [applyUpdates, hreq, htrim]
    have hany : store.any
        (fun x => x.id != id && x.name == (applyUpdates d req now).name) = false := by
      rw [List.any_eq_false]
      intro x hx hcon
      rw [hname] at hcon
      have hxn : x.name = n := by
        have := (Bool.and_eq_true _ _).mp hcon
        simpa using this.2
      exact hno x hx (lowerStr_congr hxn)
    simp only [hschema, Bool.not_true, Bool.false_eq_true, if_false, hany]

/-- C2 witness: a missing id yields NotFound; renaming the only stored deck
to a case variant of its own name yields Conflict; renaming it to a fresh,
non-colliding name merges and persists. -/
theorem updateDeck_notFound_conflict_merge_witness :
    updateDeck [] "507f1f77bcf86cd799439011" emptyUpdateReq 5
      = (Except.error UCError.notFound, []) ∧
    updateDeck [deckA] "507f1f77bcf86cd799439011"
        { emptyUpdateReq with name := some "LIGHTNING AGGRO" } 5
      = (Except.error UCError.conflict, [deckA]) ∧
    updateDeck [deckA] "507f1f77bcf86cd799439011"
        { emptyUpdateReq with name := some "Storm Combo" } 5
      = (Except.ok (some (applyUpdates deckA
            { emptyUpdateReq with name := some "Storm Combo" } 5)),
         [deckA].map (fun x => if x.id == "507f1f77bcf86cd799439011" then
            applyUpdates deckA { emptyUpdateReq with name := some "Storm Combo" } 5
          else x)) := by
  refine ⟨?_, ?_, ?_⟩
  · exact (updateDeck_notFound_conflict_merge [] "507f1f77bcf86cd799439011"
      emptyUpdateReq 5).1 (by decide)
  · exact (updateDeck_notFound_conflict_merge [deckA] "507f1f77bcf86cd799439011"
      { emptyUpdateReq with name := some "LIGHTNING AGGRO" } 5).2.1 deckA
      "LIGHTNING AGGRO" (by decide) rfl (by decide) (by decide)
      ⟨deckA, by decide, by decide⟩
  · exact (updateDeck_notFound_conflict_merge [deckA] "507f1f77bcf86cd799439011"
      { emptyUpdateReq with name := some "Storm Combo" } 5).2.2 deckA
      "Storm Combo" (by decide) rfl (by decide) (by decide) (by decide)
      (by intro x hx; rcases List.mem_singleton.mp hx with rfl; decide)
      (by decide)

/-- C3 counterexample: a partial update that supplies the new name
`storm combo` stores it verbatim — `findByIdAndUpdate` never runs the
`pre('save')` title-casing hook — so the stored name is NOT title-cased
after this mutation, refuting the at-all-times title-case invariant. -/
theorem updateDeck_name_not_titleCased :
    (updateDeck [deckA] "507f1f77bcf86cd799439011"
        { emptyUpdateReq with name := some "storm combo" } 5).fst
      = Except.ok (some { deckA with name := "storm combo", updatedAt := 5 }) ∧
    titleCase "storm combo" = "Storm Combo" ∧
    ("storm combo" : String) ≠ "Storm Combo" := by
  refine ⟨by decide, by decide, by decide⟩

/-- C3 (amended): deck names are title-cased when a deck is CREATED —
creating `lightning aggro` stores `Lightning Aggro`, and creating
`LIGHTNING AGGRO` afterwards fails with Conflict — but a partial update
that supplies a new name stores that name verbatim (only trimmed), without
title-casing, so the title-case invariant survives only mutations that do
not change the name. -/
theorem titleCase_at_create_verbatim_at_update (store : List Deck)
    (req : CreateDeckRequest) (freshId : String) (now : Nat) (id : String)
    (u : UpdateDeckRequest) :
    (∀ d' store', createDeck store req freshId now = (Except.ok d', store') →
      d'.name = titleCase (trimStr req.name)) ∧
    ((createDeck [] sampleCreateReq "507f1f77bcf86cd799439011" 1).snd.map
        (fun d => d.name) = ["Lightning Aggro"] ∧
      (createDeck (createDeck [] sampleCreateReq "507f1f77bcf86cd799439011" 1).snd
          sampleCreateReqUpper "507f1f77bcf86cd799439012" 2).fst
        = Except.error UCError.conflict) ∧
    (∀ d d' store' n, findById store id = some d → u.name = some n →
      updateDeck store id u now = (Except.ok (some d'), store') →
      d'.name = trimStr n) := by
  refine ⟨?_, ⟨by decide, by decide⟩, ?_⟩
  · intro d' store' h
    exact createDeck_ok_name h
  · intro d d' store' n hd hn h
    rcases updateDeck_ok_eq hd h with ⟨rfl, _⟩
    simp [applyUpdates, hn]

/-- C3 witness: on an empty store the sample request stores the title-cased
name, and renaming the stored deck stores the supplied name verbatim. -/
theorem titleCase_at_create_verbatim_at_update_witness :
    deckCreated.name = titleCase (trimStr sampleCreateReq.name) ∧
    (applyUpdates deckA { emptyUpdateReq with name := some "storm combo" } 5).name
      = trimStr "storm combo" := by
  constructor
  · exact (titleCase_at_create_verbatim_at_update [] sampleCreateReq
      "507f1f77bcf86cd799439011" 1 "" emptyUpdateReq).1 deckCreated
      [deckCreated] (by decide)
  · exact (titleCase_at_create_verbatim_at_update [deckA] sampleCreateReq
      "507f1f77bcf86cd799439011" 5 "507f1f77bcf86cd799439011"
      { emptyUpdateReq with name := some "storm combo" }).2.2 deckA
      (applyUpdates deckA { emptyUpdateReq with name := some "storm combo" } 5)
      [applyUpdates deckA { emptyUpdateReq with name := some "storm combo" } 5]
      "storm combo" (by decide) rfl (by decide)

/-- C4: every record `findAll` returns matches every supplied filter
(conjunction, with `storageLocation` as case-insensitive substring and the
other filters exact, omitted filters unconstrained, as `matchesQuery`
states); conversely, whenever the page window covers the whole store
(first page, limit at least the store size), a record is returned IF AND
ONLY IF it is stored and matches every supplied filter; and the empty
filter set constrains nothing. -/
theorem findAll_filter_conjunction (store : List Deck) (f : Option DeckFilters)
    (p : Option PaginationOptions) (d : Deck) :
    (d ∈ (findAll store f p).data → d ∈ store ∧ matchesQueryOpt f d = true) ∧
    (effPage p = 1 → store.length ≤ effLimit p →
      (d ∈ (findAll store f p).data ↔ d ∈ store ∧ matchesQueryOpt f d = true)) ∧
    matchesQuery ⟨none, none, none, none, none, none⟩ d = true := by
  refine ⟨?_, ?_, rfl⟩
  · intro hd
    rw [findAll_data] at hd
    exact (mem_filteredSorted store f p d).mp
      (List.mem_of_mem_drop (List.mem_of_mem_take hd))
  · intro hpage hlim
    rw [findAll_data, hpage]
    have hlen : (filteredSorted store f p).length ≤ effLimit p := by
      rw [length_filteredSorted]
      exact le_trans (List.length_filter_le _ _) hlim
    rw [Nat.sub_self, Nat.zero_mul, List.drop_zero, List.take_of_length_le hlen]
    exact mem_filteredSorted store f p d

/-- C4 witness: with an AGGRO filter over a two-deck store and the default
pagination window, exactly the AGGRO deck is returned. -/
theorem findAll_filter_conjunction_witness :
    deckA ∈ (findAll [deckA, deckB]
        (some ⟨some "AGGRO", none, none, none, none, none⟩) none).data ∧
    (deckB ∈ (findAll [deckA, deckB]
        (some ⟨some "AGGRO", none, none, none, none, none⟩) none).data →
      deckB ∈ [deckA, deckB] ∧ matchesQueryOpt
        (some ⟨some "AGGRO", none, none, none, none, none⟩) deckB = true) := by
  constructor
  · exact ((findAll_filter_conjunction [deckA, deckB]
      (some ⟨some "AGGRO", none, none, none, none, none⟩) none deckA).2.1
      (by decide) (by decide)).mpr ⟨by decide, by decide⟩
  · exact (findAll_filter_conjunction [deckA, deckB]
      (some ⟨some "AGGRO", none, none, none, none, none⟩) none deckB).1

/-- C5: `findAll` reports `totalPages = ceil(total / limit)` (stated both as
the defining equation and as the characterizing bounds
`total ≤ totalPages * limit < total + limit`), its data window skips
`(page - 1) * limit` records, and requesting a page strictly beyond
`totalPages` yields an empty data list together with the correct total. -/
theorem findAll_totalPages_and_beyond (store : List Deck) (f : Option DeckFilters)
    (p : Option PaginationOptions) :
    (findAll store f p).totalPages
      = ceilDiv (findAll store f p).total (findAll store f p).limit ∧
    (findAll store f p).total
      ≤ (findAll store f p).totalPages * (findAll store f p).limit ∧
    (findAll store f p).totalPages * (findAll store f p).limit
      < (findAll store f p).total + (findAll store f p).limit ∧
    (findAll store f p).data
      = ((filteredSorted store f p).drop
          (((findAll store f p).page - 1) * (findAll store f p).limit)).take
          (findAll store f p).limit ∧
    ((findAll store f p).totalPages < (findAll store f p).page →
      (findAll store f p).data = [] ∧
      (findAll store f p).total = (store.filter (matchesQueryOpt f)).length) := by
  have hlpos := effLimit_pos p
  refine ⟨rfl, ?_, ?_, rfl, ?_⟩
  · exact le_ceilDiv_mul _ _ hlpos
  · exact ceilDiv_mul_lt _ _ hlpos
  · intro hbeyond
    refine ⟨?_, rfl⟩
    rw [findAll_totalPages, findAll_page] at hbeyond
    rw [findAll_data]
    have hskip : (filteredSorted store f p).length ≤ (effPage p - 1) * effLimit p := by
      rw [length_filteredSorted]
      calc (store.filter (matchesQueryOpt f)).length
          ≤ ceilDiv (store.filter (matchesQueryOpt f)).length (effLimit p)
            * effLimit p := le_ceilDiv_mul _ _ hlpos
        _ ≤ (effPage p - 1) * effLimit p := by
            apply Nat.mul_le_mul_right
            omega
    rw [List.drop_eq_nil_of_le hskip, List.take_nil]

/-- C5 witness: three matching decks at limit 2 give two pages, and
requesting page 3 yields an empty list with the correct total. -/
theorem findAll_totalPages_and_beyond_witness :
    (findAll [deckA, deckB, deckDragonName] none
        (some ⟨3, 2, "createdAt", "desc"⟩)).totalPages
      = ceilDiv (findAll [deckA, deckB, deckDragonName] none
          (some ⟨3, 2, "createdAt", "desc"⟩)).total 2 ∧
    (findAll [deckA, deckB, deckDragonName] none
        (some ⟨3, 2, "createdAt", "desc"⟩)).data = [] ∧
    (findAll [deckA, deckB, deckDragonName] none
        (some ⟨3, 2, "createdAt", "desc"⟩)).total = 3 := by
  have h := findAll_totalPages_and_beyond [deckA, deckB, deckDragonName] none
    (some ⟨3, 2, "createdAt", "desc"⟩)
  refine ⟨h.1, ?_, by decide⟩
  exact (h.2.2.2.2 (by decide)).1

/-- C6: before the query executes, the controller clamps a requested limit
outside `[1, 100]` (and an absent limit) to the default 10 and a page below
1 (and an absent page) to 1 — the effective limit always lies in `[1, 100]`
and the effective page is at least 1; and when no sort is specified the
result data is sorted by creation time descending. -/
theorem getAllDecks_clamps_and_default_sort (q : ListRequestQuery) (store : List Deck) :
    1 ≤ (controllerPagination q).page ∧
    1 ≤ (controllerPagination q).limit ∧
    (controllerPagination q).limit ≤ 100 ∧
    (∀ n, q.limit = some n → (n < 1 ∨ 100 < n) → (controllerPagination q).limit = 10) ∧
    (q.limit = none → (controllerPagination q).limit = 10) ∧
    (∀ n, q.page = some n → n < 1 → (controllerPagination q).page = 1) ∧
    (q.sortBy = none → (controllerPagination q).sortBy = "createdAt") ∧
    (q.sortOrder = none → (controllerPagination q).sortOrder = "desc") ∧
    (q.sortBy = none → q.sortOrder = none →
      (getAllDecksEndpoint store q).data.Pairwise
        (fun a b => b.createdAt ≤ a.createdAt)) := by
  refine ⟨?_, ?_, ?_, ?_, ?_, ?_, ?_, ?_, ?_⟩
  · unfold controllerPagination
    rcases q.page with _ | n <;> dsimp only <;>
      (try simp only [beq_iff_eq, Bool.or_eq_true, decide_eq_true_eq]) <;>
      split_ifs <;> omega
  · unfold controllerPagination
    rcases q.limit with _ | n <;> dsimp only <;>
      (try simp only [beq_iff_eq, Bool.or_eq_true, decide_eq_true_eq]) <;>
      split_ifs <;> omega
  · unfold controllerPagination
    rcases q.limit with _ | n <;> dsimp only <;>
      (try simp only [beq_iff_eq, Bool.or_eq_true, decide_eq_true_eq]) <;>
      split_ifs <;> omega
  · intro n hq hout
    unfold controllerPagination
    rw [hq]
    dsimp only
    simp only [beq_iff_eq, Bool.or_eq_true, decide_eq_true_eq]
    split_ifs <;> omega
  · intro hq
    unfold controllerPagination
    rw [hq]
    dsimp only
    simp only [Bool.or_eq_true, decide_eq_true_eq]
    split_ifs <;> omega
  · intro n hq hlow
    unfold controllerPagination
    rw [hq]
    dsimp only
    simp only [beq_iff_eq, Bool.or_eq_true, decide_eq_true_eq]
    split_ifs <;> omega
  · intro hq
    unfold controllerPagination
    rw [hq]
  · intro hq
    unfold controllerPagination
    rw [hq]
  · intro hby horder
    have hcp : (controllerPagination q).sortBy = "createdAt" := by
      unfold controllerPagination
      rw [hby]
    have hco : (controllerPagination q).sortOrder = "desc" := by
      unfold controllerPagination
      rw [horder]
    unfold getAllDecksEndpoint
    rw [findAll_data]
    have hsorted : (filteredSorted store (some (controllerFilters q))
        (some (controllerPagination q))).Pairwise
        (fun a b => deckLe "createdAt" "desc" a b = true) := by
      unfold filteredSorted
      have hsb : effSortBy (some (controllerPagination q)) = "createdAt" := by
        unfold effSortBy
        dsimp only
        rw [hcp]
        decide
      have hso : effSortOrder (some (controllerPagination q)) = "desc" := by
        unfold effSortOrder
        dsimp only
        rw [hco]
        decide
      rw [hsb, hso]
      exact pairwise_insertionSortBy _ (deckLe_total _ _) (deckLe_trans _ _)
        _
    have himp : (filteredSorted store (some (controllerFilters q))
        (some (controllerPagination q))).Pairwise
        (fun a b => b.createdAt ≤ a.createdAt) := by
      refine hsorted.imp ?_
      intro a b hab
      have : deckLe "createdAt" "desc" a b
          = decide (b.createdAt ≤ a.createdAt) := rfl
      rw [this] at hab
      exact of_decide_eq_true hab
    exact himp.sublist ((List.take_sublist _ _).trans (List.drop_sublist _ _))

/-- C6 witness: a query with page `-5` and limit `500` is clamped to page 1
and limit 10; an empty query gets the defaults and a creation-time
descending result over a two-deck store. -/
theorem getAllDecks_clamps_and_default_sort_witness :
    (controllerPagination sampleQueryOutOfRange).page = 1 ∧
    (controllerPagination sampleQueryOutOfRange).limit = 10 ∧
    (controllerPagination sampleQueryEmpty).limit = 10 ∧
    (controllerPagination sampleQueryEmpty).sortBy = "createdAt" ∧
    (controllerPagination sampleQueryEmpty).sortOrder = "desc" ∧
    (getAllDecksEndpoint [deckA, deckB] sampleQueryEmpty).data.Pairwise
      (fun a b => b.createdAt ≤ a.createdAt) := by
  have h1 := getAllDecks_clamps_and_default_sort sampleQueryOutOfRange []
  have h2 := getAllDecks_clamps_and_default_sort sampleQueryEmpty [deckA, deckB]
  refine ⟨?_, ?_, ?_, ?_, ?_, ?_⟩
  · exact h1.2.2.2.2.2.1 (-5) rfl (by omega)
  · exact h1.2.2.2.1 500 rfl (by omega)
  · exact h2.2.2.2.2.1 rfl
  · exact h2.2.2.2.2.2.2.1 rfl
  · exact h2.2.2.2.2.2.2.2.1 rfl
  · exact h2.2.2.2.2.2.2.2.2 rfl rfl

/-- C7: a successful update of an existing deck, performed at a clock
instant strictly after the record's previous `updatedAt`, yields a record
whose `updatedAt` is strictly greater than before while `createdAt` and
`id` are unchanged, and the updated record is in the resulting store. -/
theorem update_bumps_updatedAt_only (store : List Deck) (id : String)
    (u : UpdateDeckRequest) (now : Nat) (d d' : Deck) (store' : List Deck)
    (hd : findById store id = some d) (hnow : d.updatedAt < now)
    (h : updateDeck store id u now = (Except.ok (some d'), store')) :
    d.updatedAt < d'.updatedAt ∧ d'.createdAt = d.createdAt ∧ d'.id = d.id ∧
    d' ∈ store' := by
  rcases updateDeck_ok_eq hd h with ⟨rfl, rfl⟩
  obtain ⟨hmem, hid⟩ := findById_mem hd
  refine ⟨hnow, rfl, rfl, ?_⟩
  refine List.mem_map.mpr ⟨d, hmem, ?_⟩
  rw [hid]
  simp

/-- C7 witness: renaming the stored deck at time 5 bumps `updatedAt` from 1
to 5 and keeps `createdAt` and `id`. -/
theorem update_bumps_updatedAt_only_witness :
    deckA.updatedAt
      < (applyUpdates deckA { emptyUpdateReq with name := some "Storm Deck" } 5).updatedAt ∧
    (applyUpdates deckA { emptyUpdateReq with name := some "Storm Deck" } 5).createdAt
      = deckA.createdAt ∧
    (applyUpdates deckA { emptyUpdateReq with name := some "Storm Deck" } 5).id
      = deckA.id ∧
    applyUpdates deckA { emptyUpdateReq with name := some "Storm Deck" } 5
      ∈ [applyUpdates deckA { emptyUpdateReq with name := some "Storm Deck" } 5] := by
  have h := update_bumps_updatedAt_only [deckA] "507f1f77bcf86cd799439011"
    { emptyUpdateReq with name := some "Storm Deck" } 5 deckA
    (applyUpdates deckA { emptyUpdateReq with name := some "Storm Deck" } 5)
    [applyUpdates deckA { emptyUpdateReq with name := some "Storm Deck" } 5]
    (by decide) (by decide) (by decide)
  exact h

/-- C10: when the update request's name is exactly (same case) the target
deck's stored name, `updateDeck` skips the uniqueness lookup entirely —
it goes straight to the repository merge — and, provided stored names are
unique and trimmed (which the unique index and the trim setters maintain),
never fails with a conflict error. -/
theorem update_same_name_skips_conflict (store : List Deck) (id : String)
    (u : UpdateDeckRequest) (now : Nat) (d : Deck)
    (hd : findById store id = some d) (hn : u.name = some d.name)
    (huniq : store.Pairwise (fun a b => a.name ≠ b.name))
    (htrim : ∀ x ∈ store, trimStr x.name = x.name) :
    updateDeck store id u now = repoUpdate store id u now ∧
    (updateDeck store id u now).fst ≠ Except.error UCError.conflict := by
  obtain ⟨hmem, hid⟩ := findById_mem hd
  have heq : updateDeck store id u now = repoUpdate store id u now := by
    unfold updateDeck
    rw [hd, hn]
    dsimp only
    have hcond : (d.name != "" && d.name != d.name && (findByName store d.name).isSome)
        = false := by
      simp
    rw [if_neg (by rw [hcond]; simp)]
  refine ⟨heq, ?_⟩
  rw [heq]
  unfold repoUpdate
  simp only [findById_valid hd, Bool.not_true, Bool.false_eq_true, if_false,
    findById_find? hd]
  have hname : (applyUpdates d u now).name = d.name := by
    simp [applyUpdates, hn, htrim d hmem]
  have hany : store.any
      (fun x => x.id != id && x.name == (applyUpdates d u now).name) = false := by
    rw [List.any_eq_false]
    intro x hx hcon
    rw [hname] at hcon
    obtain ⟨hxid, hxn⟩ := (Bool.and_eq_true _ _).mp hcon
    have hxname : x.name = d.name := by simpa using hxn
    by_cases hxd : x = d
    · subst hxd
      rw [hid] at hxid
      simp at hxid
    · exact (List.Pairwise.forall (fun a b hab => hab.symm) huniq hx hmem hxd) hxname
  rw [hany]
  by_cases hs : schemaValid (applyUpdates d u now) = true
  · simp only [hs, Bool.not_true, Bool.false_eq_true, if_false]
    intro hc
    simp at hc
  · simp only [Bool.not_eq_true] at hs
    simp only [hs, Bool.not_false, if_true]
    intro hc
    simp at hc

/-- C10 witness: re-submitting the stored deck's own name with a new
description skips the conflict path over a two-deck store. -/
theorem update_same_name_skips_conflict_witness :
    updateDeck [deckA, deckB] "507f1f77bcf86cd799439011"
        sameNameUpdateReq 5
      = repoUpdate [deckA, deckB] "507f1f77bcf86cd799439011"
          sameNameUpdateReq 5 ∧
    (updateDeck [deckA, deckB] "507f1f77bcf86cd799439011"
        sameNameUpdateReq 5).fst
      ≠ Except.error UCError.conflict := by
  exact update_same_name_skips_conflict [deckA, deckB] "507f1f77bcf86cd799439011"
    sameNameUpdateReq 5 deckA (by decide) (by decide)
    (by decide) (by decide)

/-- C8: for every request body, the create and update validators collect ALL
field violations (`abortEarly: false`): any two distinct reported issues
both appear in the `details` list of the single 400 response, which
therefore has at least two `{field, message}` entries. -/
theorem validation_collects_all_violations (b : RawDeckBody) (e1 e2 : FieldError) :
    (e1 ∈ createDeckIssues b → e2 ∈ createDeckIssues b → e1 ≠ e2 →
      ∃ errs, validateCreateDeck b = Except.error errs ∧ e1 ∈ errs ∧ e2 ∈ errs ∧
        2 ≤ errs.length) ∧
    (e1 ∈ updateDeckIssues b → e2 ∈ updateDeckIssues b → e1 ≠ e2 →
      ∃ errs, validateUpdateDeck b = Except.error errs ∧ e1 ∈ errs ∧ e2 ∈ errs ∧
        2 ≤ errs.length) := by
  constructor
  · intro h1 h2 hne
    rcases hi : createDeckIssues b with _ | ⟨a, t⟩
    · rw [hi] at h1
      cases h1
    · rw [hi] at h1 h2
      refine ⟨a :: t, ?_, h1, h2, two_le_length_of_mem_ne h1 h2 hne⟩
      unfold validateCreateDeck
      rw [hi]
  · intro h1 h2 hne
    rcases hi : updateDeckIssues b with _ | ⟨a, t⟩
    · rw [hi] at h1
      cases h1
    · rw [hi] at h1 h2
      refine ⟨a :: t, ?_, h1, h2, two_le_length_of_mem_ne h1 h2 hne⟩
      unfold validateUpdateDeck
      rw [hi]

/-- C8 witness: a body with a missing name, a blank description and an
invalid tier rating gets all of those violations reported together, for the
create and the update validator alike. -/
theorem validation_collects_all_violations_witness :
    (∃ errs, validateCreateDeck badBody = Except.error errs ∧
      (⟨"name", "\"name\" is required"⟩ : FieldError) ∈ errs ∧
      (⟨"tierRating", "Tier rating must be S, A, B, C, or D"⟩ : FieldError) ∈ errs ∧
      2 ≤ errs.length) ∧
    (∃ errs, validateUpdateDeck badBody = Except.error errs ∧
      (⟨"description", "\"description\" is not allowed to be empty"⟩ : FieldError) ∈ errs ∧
      (⟨"tierRating", "\"tierRating\" must be one of the allowed values"⟩ : FieldError) ∈ errs ∧
      2 ≤ errs.length) := by
  constructor
  · exact (validation_collects_all_violations badBody
      ⟨"name", "\"name\" is required"⟩
      ⟨"tierRating", "Tier rating must be S, A, B, C, or D"⟩).1
      (by decide) (by decide) (by decide)
  · exact (validation_collects_all_violations badBody
      ⟨"description", "\"description\" is not allowed to be empty"⟩
      ⟨"tierRating", "\"tierRating\" must be one of the allowed values"⟩).2
      (by decide) (by decide) (by decide)

/-- C9: `searchDecks` returns exactly the records matching the keyword in
`name`, `description` or `planeswalker` (positive relevance score under the
index weights name 3, planeswalker 2, description 1), ranked descending by
that score; in particular a record whose name contains the keyword always
ranks strictly above a record where only the description contains it. -/
theorem search_relevance_ranking (store : List Deck) (kw : String) (d d1 d2 : Deck) :
    (d ∈ searchByKeyword store kw ↔ d ∈ store ∧ 0 < textScore d kw) ∧
    (searchByKeyword store kw).Pairwise
      (fun a b => textScore b kw ≤ textScore a kw) ∧
    (nameMatches d1 kw = true →
      nameMatches d2 kw = false → planeswalkerMatches d2 kw = false →
      descriptionMatches d2 kw = true →
      ∀ (i j : Fin (searchByKeyword store kw).length),
        (searchByKeyword store kw).get i = d2 →
        (searchByKeyword store kw).get j = d1 → j < i) := by
  have hpair : (searchByKeyword store kw).Pairwise
      (fun a b => textScore b kw ≤ textScore a kw) := by
    unfold searchByKeyword
    refine (pairwise_insertionSortBy _ ?_ ?_ _).imp ?_
    · intro a b
      rcases Nat.le_total (textScore b kw) (textScore a kw) with h | h
      · exact Or.inl (decide_eq_true h)
      · exact Or.inr (decide_eq_true h)
    · intro a b c h1 h2
      exact decide_eq_true (le_trans (of_decide_eq_true h2) (of_decide_eq_true h1))
    · intro a b h
      exact of_decide_eq_true h
  refine ⟨?_, hpair, ?_⟩
  · unfold searchByKeyword
    rw [mem_insertionSortBy, List.mem_filter]
    simp
  · intro hn1 hn2 hp2 hd2 i j hgi hgj
    have hs1 : 3 ≤ textScore d1 kw := by
      unfold textScore
      simp only [hn1, if_true]
      split_ifs <;> omega
    have hs2 : textScore d2 kw = 1 := by
      unfold textScore
      simp [hn2, hp2, hd2]
    by_contra hc
    push_neg at hc
    rcases Nat.lt_or_ge i.val j.val with hij | hij
    · have := (List.pairwise_iff_get.mp hpair) i j hij
      rw [hgi, hgj] at this
      omega
    · have hij2 : i.val = j.val := le_antisymm (by exact hc) hij
      have : d2 = d1 := by
        rw [← hgi, ← hgj]
        congr 1
        exact Fin.ext hij2
      rw [this] at hs2
      omega

/-- C9 witness: searching `dragon` over a store holding a name-match deck
and a description-only-match deck returns both, and ranks the name match
first. -/
theorem search_relevance_ranking_witness :
    deckDragonName ∈ searchByKeyword [deckDragonDesc, deckDragonName] "dragon" ∧
    (⟨0, by decide⟩ : Fin (searchByKeyword [deckDragonDesc, deckDragonName]
        "dragon").length)
      < (⟨1, by decide⟩ : Fin (searchByKeyword [deckDragonDesc, deckDragonName]
        "dragon").length) := by
  constructor
  · exact (search_relevance_ranking [deckDragonDesc, deckDragonName] "dragon"
      deckDragonName deckDragonName deckDragonDesc).1.mpr ⟨by decide, by decide⟩
  · exact (search_relevance_ranking [deckDragonDesc, deckDragonName] "dragon"
      deckDragonName deckDragonName deckDragonDesc).2.2 (by decide) (by decide)
      (by decide) (by decide) ⟨1, by decide⟩ ⟨0, by decide⟩ (by decide) (by decide)

end DeckManager
